import Mathlib

/-!
Verification of the data-mapping layer of the monta API client
(`src/monta/models.py`).

Python dictionaries are modelled as association lists from `String` to a
JSON-like `Value`; Python `datetime` objects are modelled by the record
`DT` (civil components plus an optional fixed UTC offset in minutes, with
`none` modelling a naive datetime); fallible decoding is modelled with
`Except PyErr`, where `PyErr` enumerates the Python exception classes the
source code can raise.  `datetime.fromisoformat` / `datetime.isoformat`
from the standard library are modelled by `parseIso` / `isoformat` on the
fragment of ISO-8601 the source exercises (the exact output format of
`isoformat`, which `fromisoformat` accepts back).
-/

/-- A Python `datetime`: civil components plus an optional fixed UTC offset
in minutes (`none` models a naive datetime).  Python's `datetime`
constructor enforces the range invariants captured by `validDT` below. -/
structure DT where
  year : Nat
  month : Nat
  day : Nat
  hour : Nat
  minute : Nat
  second : Nat
  micro : Nat
  tz : Option Int
deriving DecidableEq

/-- Leap-year test, as in the Gregorian calendar used by `datetime`. -/
def isLeap (y : Nat) : Bool :=
  y % 4 == 0 && (y % 100 != 0 || y % 400 == 0)

/-- Number of days of month `mo` of year `y`. -/
def daysInMonth (y mo : Nat) : Nat :=
  if mo = 2 then (if isLeap y then 29 else 28)
  else if mo = 4 ∨ mo = 6 ∨ mo = 9 ∨ mo = 11 then 30
  else 31

/-- A valid Gregorian date within Python's `datetime` year range. -/
def dateOK (y mo dd : Nat) : Prop :=
  1 ≤ y ∧ y ≤ 9999 ∧ 1 ≤ mo ∧ mo ≤ 12 ∧ 1 ≤ dd ∧ dd ≤ daysInMonth y mo

instance (y mo dd : Nat) : Decidable (dateOK y mo dd) := by
  unfold dateOK
  infer_instance

/-- The invariant every constructible Python `datetime` object satisfies:
components in range and, when an offset is present, strictly less than a
day in magnitude. -/
def validDT (d : DT) : Bool :=
  decide (dateOK d.year d.month d.day) && decide (d.hour ≤ 23) &&
  decide (d.minute ≤ 59) && decide (d.second ≤ 59) &&
  decide (d.micro ≤ 999999) &&
  (match d.tz with
   | none => true
   | some off => decide (off.natAbs ≤ 1439))

/-- The digit character of `n < 10`. -/
def digCh (n : Nat) : Char := Char.ofNat (48 + n)

def isDig (c : Char) : Bool := 48 ≤ c.toNat && c.toNat ≤ 57

def digVal (c : Char) : Nat := c.toNat - 48

/-- Two-digit zero-padded decimal rendering. -/
def d2 (n : Nat) : List Char := [digCh (n / 10), digCh (n % 10)]

/-- Four-digit zero-padded decimal rendering. -/
def d4 (n : Nat) : List Char :=
  [digCh (n / 1000), digCh (n / 100 % 10), digCh (n / 10 % 10), digCh (n % 10)]

/-- Six-digit zero-padded decimal rendering. -/
def d6 (n : Nat) : List Char :=
  [digCh (n / 100000), digCh (n / 10000 % 10), digCh (n / 1000 % 10),
   digCh (n / 100 % 10), digCh (n / 10 % 10), digCh (n % 10)]

/-- Consume exactly two digit characters. -/
def parse2 : List Char → Option (Nat × List Char)
  | c1 :: c2 :: r =>
    if isDig c1 && isDig c2 then some (10 * digVal c1 + digVal c2, r) else none
  | _ => none

/-- Consume exactly four digit characters. -/
def parse4 : List Char → Option (Nat × List Char)
  | c1 :: c2 :: c3 :: c4 :: r =>
    if isDig c1 && isDig c2 && isDig c3 && isDig c4 then
      some (1000 * digVal c1 + 100 * digVal c2 + 10 * digVal c3 + digVal c4, r)
    else none
  | _ => none

/-- Consume exactly six digit characters. -/
def parse6 : List Char → Option (Nat × List Char)
  | c1 :: c2 :: c3 :: c4 :: c5 :: c6 :: r =>
    if isDig c1 && isDig c2 && isDig c3 && isDig c4 && isDig c5 && isDig c6 then
      some (100000 * digVal c1 + 10000 * digVal c2 + 1000 * digVal c3 +
            100 * digVal c4 + 10 * digVal c5 + digVal c6, r)
    else none
  | _ => none

/-- Consume one expected character. -/
def expectCh (c : Char) : List Char → Option (List Char)
  | c1 :: r => if c1 = c then some r else none
  | _ => none

/-- Optional fractional-seconds suffix: a dot followed by six digits, as
produced by `isoformat` when microseconds are nonzero. -/
def parseFrac : List Char → Option (Nat × List Char)
  | '.' :: r =>
    match parse6 r with
    | some p => some p
    | none => none
  | r => some (0, r)

/-- Magnitude part of a `±HH:MM` offset, which must end the string. -/
def parseTzMag (sign : Int) (r : List Char) : Option (Option Int) :=
  match parse2 r with
  | none => none
  | some (hh, r2) =>
    match expectCh ':' r2 with
    | none => none
    | some r3 =>
      match parse2 r3 with
      | none => none
      | some (mm, r4) =>
        if r4 = [] ∧ hh ≤ 23 ∧ mm ≤ 59 then
          some (some (sign * ((hh * 60 + mm : Nat) : Int)))
        else none

/-- Trailing UTC-offset part: empty (naive) or `±HH:MM`. -/
def parseTz : List Char → Option (Option Int)
  | [] => some none
  | '+' :: r => parseTzMag 1 r
  | '-' :: r => parseTzMag (-1) r
  | _ => none

/-- Time-of-day part `HH:MM:SS[.ffffff][±HH:MM]` of an ISO-8601 string. -/
def parseTime (y mo dd : Nat) (r : List Char) : Option DT :=
  match parse2 r with
  | none => none
  | some (hh, r1) =>
    match expectCh ':' r1 with
    | none => none
    | some r2 =>
      match parse2 r2 with
      | none => none
      | some (mi, r3) =>
        match expectCh ':' r3 with
        | none => none
        | some r4 =>
          match parse2 r4 with
          | none => none
          | some (ss, r5) =>
            match parseFrac r5 with
            | none => none
            | some (mic, r6) =>
              match parseTz r6 with
              | none => none
              | some tz =>
                if dateOK y mo dd ∧ hh ≤ 23 ∧ mi ≤ 59 ∧ ss ≤ 59 then
                  some ⟨y, mo, dd, hh, mi, ss, mic, tz⟩
                else none

/-- Model of `datetime.fromisoformat` on the fragment of ISO-8601 the
source exercises: `YYYY-MM-DD[THH:MM:SS[.ffffff][±HH:MM]]`, with ranges
validated as Python does. -/
def parseIso (cs : List Char) : Option DT :=
  match parse4 cs with
  | none => none
  | some (y, r1) =>
    match expectCh '-' r1 with
    | none => none
    | some r2 =>
      match parse2 r2 with
      | none => none
      | some (mo, r3) =>
        match expectCh '-' r3 with
        | none => none
        | some r4 =>
          match parse2 r4 with
          | none => none
          | some (dd, r5) =>
            match r5 with
            | [] => if dateOK y mo dd then some ⟨y, mo, dd, 0, 0, 0, 0, none⟩ else none
            | sep :: r6 => if sep = 'T' ∨ sep = ' ' then parseTime y mo dd r6 else none

/-- Fractional-seconds chars of `isoformat`: empty when microseconds are
zero, otherwise a dot and six digits. -/
def fracChars (m : Nat) : List Char := if m = 0 then [] else '.' :: d6 m

/-- Offset chars of `isoformat`: empty for a naive datetime, otherwise
`±HH:MM`. -/
def tzChars : Option Int → List Char
  | none => []
  | some off =>
    (if off < 0 then '-' else '+') :: (d2 (off.natAbs / 60) ++ ':' :: d2 (off.natAbs % 60))

/-- Character list of `datetime.isoformat()`. -/
def isoChars (d : DT) : List Char :=
  d4 d.year ++ '-' :: (d2 d.month ++ '-' :: (d2 d.day ++ 'T' ::
    (d2 d.hour ++ ':' :: (d2 d.minute ++ ':' ::
      (d2 d.second ++ (fracChars d.micro ++ tzChars d.tz))))))

/-- Model of `datetime.isoformat()`. -/
def isoformat (d : DT) : String := String.mk (isoChars d)

/-- JSON-like runtime values, as handed to the decoders after JSON parsing.
`dt` models an already-typed `datetime` object, which `_parse_datetime`
explicitly accepts. -/
inductive Value where
  | null
  | str (s : String)
  | num (q : ℚ)
  | bool (b : Bool)
  | list (l : List Value)
  | dict (m : List (String × Value))
  | dt (d : DT)

/-- Python truthiness of a `Value` (`bool(x)`), as used by `if not x`
checks and conditional expressions in the source. -/
def Value.truthy : Value → Bool
  | .null => false
  | .str s => !s.data.isEmpty
  | .num q => decide (q ≠ 0)
  | .bool b => b
  | .list l => !l.isEmpty
  | .dict m => !m.isEmpty
  | .dt _ => true

/-- The Python exception classes the source code can raise. -/
inductive PyErr where
  | keyError (k : String)
  | typeError
  | attributeError
  | valueError
deriving DecidableEq

/-- Model of `s.replace('Z', '+00:00')` (Python `str.replace` with a
single-character pattern replaces every occurrence). -/
def replaceZChars : List Char → List Char
  | [] => []
  | c :: r => (if c = 'Z' then ['+', '0', '0', ':', '0', '0'] else [c]) ++ replaceZChars r

/-- Stamp a naive datetime as UTC, modelling
`dt.replace(tzinfo=timezone.utc)` guarded by `dt.tzinfo is None`. -/
def stampUTC (d : DT) : DT :=
  match d.tz with
  | none => ⟨d.year, d.month, d.day, d.hour, d.minute, d.second, d.micro, some 0⟩
  | some _ => d

/-- The body of the `try` block of `_parse_datetime`: `.replace` on a
non-string raises `AttributeError`; `fromisoformat` on an unparsable
string raises `ValueError`. -/
def pdTryBody (v : Value) : Except PyErr DT :=
  match v with
  | .str s =>
    match parseIso (replaceZChars s.data) with
    | some d => .ok (stampUTC d)
    | none => .error .valueError
  | _ => .error .attributeError

/-- `_parse_datetime` with its exception behaviour explicit: falsy input
returns `None`; a `datetime` input is returned unchanged; otherwise the
`try` block runs and `except (ValueError, AttributeError)` turns exactly
those two errors into `None`. -/
def parseDatetimeE (v : Value) : Except PyErr (Option DT) :=
  if v.truthy = false then .ok none
  else
    match v with
    | .dt d => .ok (some d)
    | _ =>
      match pdTryBody v with
      | .ok d => .ok (some d)
      | .error .valueError => .ok none
      | .error .attributeError => .ok none
      | .error e => .error e

/-- `_parse_datetime` as the callers see it. -/
def parseDatetime (v : Value) : Option DT :=
  match parseDatetimeE v with
  | .ok r => r
  | .error _ => none

/-- Model of `data.get(k, dflt)`. -/
def pyGet (data : List (String × Value)) (k : String) (dflt : Value) : Value :=
  (List.lookup k data).getD dflt

/-- `Currency` record; field values are stored exactly as extracted from
the mapping (Python dataclasses do not coerce). -/
structure Currency where
  identifier : Value
  name : Value
  decimals : Value

/-- `Currency.from_dict`: falsy input short-circuits to `None`; a truthy
non-mapping raises `AttributeError` at the first `.get` call. -/
def Currency.from_dict (v : Value) : Except PyErr (Option Currency) :=
  if v.truthy = false then .ok none
  else
    match v with
    | .dict m =>
      .ok (some ⟨pyGet m "identifier" (.str ""), pyGet m "name" (.str ""),
                 pyGet m "decimals" (.num 2)⟩)
    | _ => .error .attributeError

/-- `Balance` record. -/
structure Balance where
  amount : Value
  credit : Value

/-- `Balance.from_dict`. -/
def Balance.from_dict (v : Value) : Except PyErr (Option Balance) :=
  if v.truthy = false then .ok none
  else
    match v with
    | .dict m => .ok (some ⟨pyGet m "amount" (.num 0), pyGet m "credit" (.num 0)⟩)
    | _ => .error .attributeError

/-- `Wallet` record. -/
structure Wallet where
  id : Value
  owner_type : Value
  balance : Option Balance
  currency : Option Currency
  status : Value

/-- `Wallet.from_dict`: every scalar key defaults; the nested decoders run
in source order and propagate their errors. -/
def Wallet.from_dict (data : List (String × Value)) : Except PyErr Wallet :=
  match Balance.from_dict (pyGet data "balance" .null) with
  | .error e => .error e
  | .ok b =>
    match Currency.from_dict (pyGet data "currency" .null) with
    | .error e => .error e
    | .ok c =>
      .ok ⟨pyGet data "id" (.num 0), pyGet data "ownerType" (.str ""), b, c,
           pyGet data "status" (.str "")⟩

/-- `Charge` record.  The eight instant fields always hold
`_parse_datetime` results, hence `Option DT`. -/
structure Charge where
  id : Value
  state : Value
  created_at : Option DT
  updated_at : Option DT
  started_at : Option DT
  stopped_at : Option DT
  cable_plugged_in_at : Option DT
  fully_charged_at : Option DT
  failed_at : Option DT
  timeout_at : Option DT

/-- `Charge.from_dict`: `data["id"]` raises `KeyError('id')` when absent;
every other field degrades to a default. -/
def Charge.from_dict (data : List (String × Value)) : Except PyErr Charge :=
  match List.lookup "id" data with
  | none => .error (.keyError "id")
  | some idv =>
    .ok ⟨idv, pyGet data "state" (.str ""),
         parseDatetime (pyGet data "createdAt" .null),
         parseDatetime (pyGet data "updatedAt" .null),
         parseDatetime (pyGet data "startedAt" .null),
         parseDatetime (pyGet data "stoppedAt" .null),
         parseDatetime (pyGet data "cablePluggedInAt" .null),
         parseDatetime (pyGet data "fullyChargedAt" .null),
         parseDatetime (pyGet data "failedAt" .null),
         parseDatetime (pyGet data "timeoutAt" .null)⟩

/-- Encode an optional instant as `x.isoformat() if x else None`. -/
def isoOpt : Option DT → Value
  | none => .null
  | some d => .str (isoformat d)

/-- `Charge.to_dict`. -/
def Charge.to_dict (c : Charge) : List (String × Value) :=
  [("id", c.id), ("state", c.state),
   ("createdAt", isoOpt c.created_at),
   ("updatedAt", isoOpt c.updated_at),
   ("startedAt", isoOpt c.started_at),
   ("stoppedAt", isoOpt c.stopped_at),
   ("cablePluggedInAt", isoOpt c.cable_plugged_in_at),
   ("fullyChargedAt", isoOpt c.fully_charged_at),
   ("failedAt", isoOpt c.failed_at),
   ("timeoutAt", isoOpt c.timeout_at)]

/-- Decode one element of the `charges` list: `Charge.from_dict` demands a
mapping; subscripting anything else raises `TypeError`. -/
def chargeElem (v : Value) : Except PyErr Charge :=
  match v with
  | .dict m => Charge.from_dict m
  | _ => .error .typeError

/-- The list comprehension `[Charge.from_dict(c) for c in charges_data]`:
elements decode left to right and the first error propagates. -/
def mapCharges : List Value → Except PyErr (List Charge)
  | [] => .ok []
  | v :: r =>
    match chargeElem v with
    | .error e => .error e
    | .ok c =>
      match mapCharges r with
      | .error e => .error e
      | .ok cs => .ok (c :: cs)

/-- `charges = [...] if charges_data else []`: a falsy value yields the
empty list without iteration; a truthy non-list fails with `TypeError`. -/
def chargesPart (v : Value) : Except PyErr (List Charge) :=
  if v.truthy then
    match v with
    | .list l => mapCharges l
    | _ => .error .typeError
  else .ok []

/-- `ChargePoint` record. -/
structure ChargePoint where
  id : Value
  name : Value
  serial_number : Value
  type : Value
  state : Value
  visibility : Value
  last_meter_reading_kwh : Value
  brand_name : Value
  model_name : Value
  firmware_version : Value
  cable_plugged_in : Value
  charges : List Charge

/-- `ChargePoint.from_dict`: the charges comprehension runs before the
`data["id"]` subscript, in source order. -/
def ChargePoint.from_dict (data : List (String × Value)) : Except PyErr ChargePoint :=
  match chargesPart (pyGet data "charges" (.list [])) with
  | .error e => .error e
  | .ok cs =>
    match List.lookup "id" data with
    | none => .error (.keyError "id")
    | some idv =>
      .ok ⟨idv, pyGet data "name" (.str ""), pyGet data "serialNumber" .null,
           pyGet data "type" (.str ""), pyGet data "state" (.str ""),
           pyGet data "visibility" (.str ""), pyGet data "lastMeterReadingKwh" (.num 0),
           pyGet data "brandName" (.str ""), pyGet data "modelName" (.str ""),
           pyGet data "firmwareVersion" (.str ""), pyGet data "cablePluggedIn" (.bool false),
           cs⟩

/-- `WalletTransaction` record. -/
structure WalletTransaction where
  id : Value
  state : Value
  summary : Value
  note : Value
  from_amount : Value
  from_currency : Option Currency
  from_wallet_id : Value
  to_amount : Value
  to_currency : Option Currency
  to_wallet_id : Value
  charge_id : Value
  exchange_rate : Value
  created_at : Option DT
  updated_at : Option DT
  completed_at : Option DT

/-- `WalletTransaction.from_dict`: `data["id"]` is evaluated first, then
the two nested `Currency.from_dict` calls in source order. -/
def WalletTransaction.from_dict (data : List (String × Value)) :
    Except PyErr WalletTransaction :=
  match List.lookup "id" data with
  | none => .error (.keyError "id")
  | some idv =>
    match Currency.from_dict (pyGet data "fromCurrency" .null) with
    | .error e => .error e
    | .ok fc =>
      match Currency.from_dict (pyGet data "toCurrency" .null) with
      | .error e => .error e
      | .ok tc =>
        .ok ⟨idv, pyGet data "state" (.str ""), pyGet data "summary" (.str ""),
             pyGet data "note" .null, pyGet data "fromAmount" (.num 0), fc,
             pyGet data "fromWalletId" .null, pyGet data "toAmount" (.num 0), tc,
             pyGet data "toWalletId" .null, pyGet data "chargeId" .null,
             pyGet data "exchangeRate" (.num 1),
             parseDatetime (pyGet data "createdAt" .null),
             parseDatetime (pyGet data "updatedAt" .null),
             parseDatetime (pyGet data "completedAt" .null)⟩

/-- Inline encoding of an optional nested `Currency` in
`WalletTransaction.to_dict`. -/
def curVal : Option Currency → Value
  | none => .null
  | some c => .dict [("identifier", c.identifier), ("name", c.name), ("decimals", c.decimals)]

/-- `WalletTransaction.to_dict`. -/
def WalletTransaction.to_dict (t : WalletTransaction) : List (String × Value) :=
  [("id", t.id), ("state", t.state), ("summary", t.summary), ("note", t.note),
   ("fromAmount", t.from_amount), ("fromCurrency", curVal t.from_currency),
   ("fromWalletId", t.from_wallet_id), ("toAmount", t.to_amount),
   ("toCurrency", curVal t.to_currency), ("toWalletId", t.to_wallet_id),
   ("chargeId", t.charge_id), ("exchangeRate", t.exchange_rate),
   ("createdAt", isoOpt t.created_at), ("updatedAt", isoOpt t.updated_at),
   ("completedAt", isoOpt t.completed_at)]

/-- `TokenResponse` record.  The two expiration fields are typed
`Option DT` because the decoder stores whatever `_parse_datetime` returns,
including `None` (contradicting the dataclass's `datetime` annotation). -/
structure TokenResponse where
  access_token : Value
  access_token_expiration_date : Option DT
  refresh_token : Value
  refresh_token_expiration_date : Option DT
  user_id : Value

/-- `TokenResponse.from_dict`: the four subscripts raise `KeyError` when a
key is absent, evaluated in source order. -/
def TokenResponse.from_dict (data : List (String × Value)) : Except PyErr TokenResponse :=
  match List.lookup "accessToken" data with
  | none => .error (.keyError "accessToken")
  | some a =>
    match List.lookup "accessTokenExpirationDate" data with
    | none => .error (.keyError "accessTokenExpirationDate")
    | some ae =>
      match List.lookup "refreshToken" data with
      | none => .error (.keyError "refreshToken")
      | some r =>
        match List.lookup "refreshTokenExpirationDate" data with
        | none => .error (.keyError "refreshTokenExpirationDate")
        | some re2 =>
          .ok ⟨a, parseDatetime ae, r, parseDatetime re2, pyGet data "userId" .null⟩

/-- A value that `Currency.from_dict`/`Balance.from_dict` accept without
raising: falsy, or a mapping. -/
def valOK (v : Value) : Prop := v.truthy = false ∨ ∃ m, v = .dict m

/-- An element of a `charges` list that decodes without raising: a mapping
containing the `"id"` key. -/
def chargeElemOK (v : Value) : Prop :=
  ∃ m, v = .dict m ∧ (List.lookup "id" m).isSome = true

/-- A `charges` value that decodes without raising: falsy, or a list of
well-formed charge mappings. -/
def chargesOK (v : Value) : Prop :=
  v.truthy = false ∨ ∃ l, v = .list l ∧ ∀ e ∈ l, chargeElemOK e

/-- An optional instant that is absent, or valid and timezone-aware. -/
def dtOK : Option DT → Bool
  | none => true
  | some d => validDT d && d.tz.isSome

/-- All instant fields of a `Charge` are absent or valid-and-aware. -/
def chargeInstantsOK (c : Charge) : Prop :=
  dtOK c.created_at = true ∧ dtOK c.updated_at = true ∧ dtOK c.started_at = true ∧
  dtOK c.stopped_at = true ∧ dtOK c.cable_plugged_in_at = true ∧
  dtOK c.fully_charged_at = true ∧ dtOK c.failed_at = true ∧ dtOK c.timeout_at = true

/-- All instant fields of a `WalletTransaction` are absent or
valid-and-aware. -/
def wtInstantsOK (t : WalletTransaction) : Prop :=
  dtOK t.created_at = true ∧ dtOK t.updated_at = true ∧ dtOK t.completed_at = true

/-- The instant 2024-01-15 10:30:00 UTC. -/
def dtUTCEx : DT := ⟨2024, 1, 15, 10, 30, 0, 0, some 0⟩

/-- The naive instant 2024-01-15 10:30:00 (no offset). -/
def dtNaiveEx : DT := ⟨2024, 1, 15, 10, 30, 0, 0, none⟩

/-- The `Charge` decoded from a mapping carrying an already-typed naive
datetime under `"createdAt"`. -/
def chargeNaiveEx : Charge :=
  ⟨.num 1, .str "", some dtNaiveEx, none, none, none, none, none, none, none⟩

/-- The `Charge` obtained by re-decoding the encoding of `chargeNaiveEx`:
the naive instant comes back stamped UTC. -/
def chargeNaiveEx2 : Charge :=
  ⟨.num 1, .str "", some dtUTCEx, none, none, none, none, none, none, none⟩

/-- The wallet decoded from the empty mapping. -/
def walletEmptyEx : Wallet := ⟨.num 0, .str "", none, none, .str ""⟩

/-- A `TokenResponse` input whose access-token expiration string is
unparsable while all four required keys are present. -/
def tokenBugInput : List (String × Value) :=
  [("accessToken", .str "tok"), ("accessTokenExpirationDate", .str "not-a-date"),
   ("refreshToken", .str "ref"), ("refreshTokenExpirationDate", .str "2024-01-15T10:30:00Z")]

/-- Charge-list input used as a witness for claim C8. -/
def chargesListEx : List Value := [.dict [("id", .num 1)], .dict [("id", .num 2)]]

/-- Decoded charges of `chargesListEx`, in input order. -/
def chargesDecodedEx : List Charge :=
  [⟨.num 1, .str "", none, none, none, none, none, none, none, none⟩,
   ⟨.num 2, .str "", none, none, none, none, none, none, none, none⟩]

/-- ChargePoint input used as a witness for claim C8. -/
def chargePointInputEx : List (String × Value) :=
  [("id", .num 9), ("charges", .list chargesListEx)]

/-- A concrete aware charge used as a witness for claim C3. -/
def chargeAwareEx : Charge :=
  ⟨.num 42, .str "charging", some ⟨2024, 3, 1, 8, 0, 0, 0, some 0⟩,
   none, none, none, none, none, none, none⟩

/-- A concrete wallet transaction used as a witness for claim C3. -/
def wtAwareEx : WalletTransaction :=
  ⟨.num 7, .str "complete", .str "", .null, .num 12, some ⟨.str "DKK", .str "Krone", .num 2⟩,
   .null, .num 12, none, .null, .null, .num 1,
   some ⟨2024, 3, 1, 8, 0, 0, 0, some 60⟩, none, some ⟨2024, 3, 1, 9, 30, 0, 500000, some (-90)⟩⟩

/-! ### Helper lemmas about the digit printers and parsers -/

theorem digCh_isDig {n : Nat} (h : n < 10) : isDig (digCh n) = true := by
  interval_cases n <;> decide

theorem digVal_digCh {n : Nat} (h : n < 10) : digVal (digCh n) = n := by
  interval_cases n <;> decide

theorem digCh_ne_Z {n : Nat} (h : n < 10) : digCh n ≠ 'Z' := by
  interval_cases n <;> decide

theorem parse2_d2 {n : Nat} (h : n < 100) (r : List Char) :
    parse2 (d2 n ++ r) = some (n, r) := by
  have h1 : n / 10 < 10 := by omega
  have h2 : n % 10 < 10 := by omega
  simp [d2, parse2, digCh_isDig h1, digCh_isDig h2, digVal_digCh h1, digVal_digCh h2]
  omega

theorem parse2_d2_nil {n : Nat} (h : n < 100) : parse2 (d2 n) = some (n, []) := by
  have h2 := parse2_d2 h []
  simpa using h2

theorem parse4_d4 {n : Nat} (h : n < 10000) (r : List Char) :
    parse4 (d4 n ++ r) = some (n, r) := by
  have h1 : n / 1000 < 10 := by omega
  have h2 : n / 100 % 10 < 10 := by omega
  have h3 : n / 10 % 10 < 10 := by omega
  have h4 : n % 10 < 10 := by omega
  simp [d4, parse4, digCh_isDig h1, digCh_isDig h2, digCh_isDig h3, digCh_isDig h4,
    digVal_digCh h1, digVal_digCh h2, digVal_digCh h3, digVal_digCh h4]
  omega

theorem parse6_d6 {n : Nat} (h : n < 1000000) (r : List Char) :
    parse6 (d6 n ++ r) = some (n, r) := by
  have h1 : n / 100000 < 10 := by omega
  have h2 : n / 10000 % 10 < 10 := by omega
  have h3 : n / 1000 % 10 < 10 := by omega
  have h4 : n / 100 % 10 < 10 := by omega
  have h5 : n / 10 % 10 < 10 := by omega
  have h6 : n % 10 < 10 := by omega
  simp [d6, parse6, digCh_isDig h1, digCh_isDig h2, digCh_isDig h3, digCh_isDig h4,
    digCh_isDig h5, digCh_isDig h6, digVal_digCh h1, digVal_digCh h2, digVal_digCh h3,
    digVal_digCh h4, digVal_digCh h5, digVal_digCh h6]
  omega

theorem expectCh_same (c : Char) (r : List Char) : expectCh c (c :: r) = some r := by
  simp [expectCh]

theorem daysInMonth_le (y mo : Nat) : daysInMonth y mo ≤ 31 := by
  unfold daysInMonth
  split_ifs <;> omega

theorem validDT_props {d : DT} (h : validDT d = true) :
    dateOK d.year d.month d.day ∧ d.hour ≤ 23 ∧ d.minute ≤ 59 ∧ d.second ≤ 59 ∧
      d.micro ≤ 999999 ∧ ∀ off, d.tz = some off → off.natAbs ≤ 1439 := by
  simp only [validDT, Bool.and_eq_true, decide_eq_true_eq] at h
  obtain ⟨⟨⟨⟨⟨h1, h2⟩, h3⟩, h4⟩, h5⟩, h6⟩ := h
  refine ⟨h1, h2, h3, h4, h5, ?_⟩
  intro off hoff
  rw [hoff] at h6
  simpa using h6

theorem parseFrac_fracChars {m : Nat} (hm : m < 1000000) (tz : Option Int) :
    parseFrac (fracChars m ++ tzChars tz) = some (m, tzChars tz) := by
  by_cases h0 : m = 0
  · subst h0
    simp only [fracChars, if_pos rfl, List.nil_append]
    cases tz with
    | none => rfl
    | some off =>
      by_cases ho : off < 0
      · simp only [tzChars, if_pos ho]
        rfl
      · simp only [tzChars, if_neg ho]
        rfl
  · simp only [fracChars, if_neg h0, List.cons_append]
    simp [parseFrac, parse6_d6 hm]

theorem parseTz_tzChars {tz : Option Int} (htz : ∀ off, tz = some off → off.natAbs ≤ 1439) :
    parseTz (tzChars tz) = some tz := by
  cases tz with
  | none => rfl
  | some off =>
    have hb : off.natAbs ≤ 1439 := htz off rfl
    have hd : off.natAbs / 60 < 100 := by omega
    have hm : off.natAbs % 60 < 100 := by omega
    by_cases ho : off < 0
    · simp only [tzChars, if_pos ho]
      simp only [parseTz, parseTzMag, parse2_d2 hd, expectCh_same, parse2_d2_nil hm]
      rw [if_pos ⟨trivial, by omega, by omega⟩]
      simp only [Option.some.injEq]
      omega
    · simp only [tzChars, if_neg ho]
      simp only [parseTz, parseTzMag, parse2_d2 hd, expectCh_same, parse2_d2_nil hm]
      rw [if_pos ⟨trivial, by omega, by omega⟩]
      simp only [Option.some.injEq]
      omega

theorem parseTime_round {y mo dd hh mi ss mic : Nat} {tz : Option Int}
    (hdok : dateOK y mo dd) (hh23 : hh ≤ 23) (hmi : mi ≤ 59) (hss : ss ≤ 59)
    (hmic : mic < 1000000) (htz : ∀ off, tz = some off → off.natAbs ≤ 1439) :
    parseTime y mo dd
      (d2 hh ++ ':' :: (d2 mi ++ ':' :: (d2 ss ++ (fracChars mic ++ tzChars tz)))) =
      some ⟨y, mo, dd, hh, mi, ss, mic, tz⟩ := by
  simp only [parseTime, parse2_d2 (show hh < 100 by omega), expectCh_same,
    parse2_d2 (show mi < 100 by omega), parse2_d2 (show ss < 100 by omega),
    parseFrac_fracChars hmic, parseTz_tzChars htz]
  rw [if_pos ⟨hdok, hh23, hmi, hss⟩]

theorem parseIso_iso {d : DT} (hv : validDT d = true) : parseIso (isoChars d) = some d := by
  obtain ⟨hdok, hh, hmi, hss, hmic, htz⟩ := validDT_props hv
  have hy : d.year < 10000 := by
    have h2 := hdok.2.1
    omega
  have hmo : d.month < 100 := by
    have h2 := hdok.2.2.2.1
    omega
  have hdd : d.day < 100 := by
    have h31 := daysInMonth_le d.year d.month
    have h2 := hdok.2.2.2.2.2
    omega
  simp only [isoChars, parseIso, parse4_d4 hy, expectCh_same, parse2_d2 hmo, parse2_d2 hdd]
  rw [if_pos (Or.inl trivial)]
  rw [parseTime_round hdok hh hmi hss (by omega) htz]

/-! ### Helper lemmas about the Z-replacement and `_parse_datetime` -/

theorem rz_cons_ne {c : Char} (h : c ≠ 'Z') (r : List Char) :
    replaceZChars (c :: r) = c :: replaceZChars r := by
  simp [replaceZChars, h]

theorem rz_of_forall {l : List Char} (h : ∀ c ∈ l, c ≠ 'Z') : replaceZChars l = l := by
  induction l with
  | nil => rfl
  | cons c r ih =>
    rw [rz_cons_ne (h c (by simp)) r, ih (fun x hx => h x (by simp [hx]))]

theorem mem_d2_ne_Z {n : Nat} (h : n < 100) : ∀ c ∈ d2 n, c ≠ 'Z' := by
  intro c hc
  simp only [d2, List.mem_cons, List.not_mem_nil, or_false] at hc
  rcases hc with rfl | rfl
  · exact digCh_ne_Z (by omega)
  · exact digCh_ne_Z (by omega)

theorem mem_d4_ne_Z {n : Nat} (h : n < 10000) : ∀ c ∈ d4 n, c ≠ 'Z' := by
  intro c hc
  simp only [d4, List.mem_cons, List.not_mem_nil, or_false] at hc
  rcases hc with rfl | rfl | rfl | rfl
  · exact digCh_ne_Z (by omega)
  · exact digCh_ne_Z (by omega)
  · exact digCh_ne_Z (by omega)
  · exact digCh_ne_Z (by omega)

theorem mem_d6_ne_Z {n : Nat} (h : n < 1000000) : ∀ c ∈ d6 n, c ≠ 'Z' := by
  intro c hc
  simp only [d6, List.mem_cons, List.not_mem_nil, or_false] at hc
  rcases hc with rfl | rfl | rfl | rfl | rfl | rfl
  · exact digCh_ne_Z (by omega)
  · exact digCh_ne_Z (by omega)
  · exact digCh_ne_Z (by omega)
  · exact digCh_ne_Z (by omega)
  · exact digCh_ne_Z (by omega)
  · exact digCh_ne_Z (by omega)

theorem mem_frac_ne_Z {m : Nat} (h : m < 1000000) : ∀ c ∈ fracChars m, c ≠ 'Z' := by
  intro c hc
  by_cases h0 : m = 0
  · simp [fracChars, h0] at hc
  · simp only [fracChars, if_neg h0] at hc
    rcases List.mem_cons.mp hc with rfl | hc2
    · decide
    · exact mem_d6_ne_Z h c hc2

theorem mem_tz_ne_Z {tz : Option Int} (h : ∀ off, tz = some off → off.natAbs ≤ 1439) :
    ∀ c ∈ tzChars tz, c ≠ 'Z' := by
  intro c hc
  cases tz with
  | none => simp [tzChars] at hc
  | some off =>
    have hb := h off rfl
    simp only [tzChars] at hc
    rcases List.mem_cons.mp hc with rfl | hc2
    · by_cases ho : off < 0 <;> simp only [if_pos, if_neg, ho] <;> decide
    · rcases List.mem_append.mp hc2 with h3 | h3
      · exact mem_d2_ne_Z (by omega) c h3
      · rcases List.mem_cons.mp h3 with rfl | h4
        · decide
        · exact mem_d2_ne_Z (by omega) c h4

theorem rz_isoChars {d : DT} (hv : validDT d = true) :
    replaceZChars (isoChars d) = isoChars d := by
  obtain ⟨hdok, hhr, hmir, hssr, hmicr, htz⟩ := validDT_props hv
  obtain ⟨ha1, ha2, ha3, ha4, ha5, ha6⟩ := hdok
  have h31 := daysInMonth_le d.year d.month
  apply rz_of_forall
  intro c hc
  simp only [isoChars] at hc
  rcases List.mem_append.mp hc with h | h
  · exact mem_d4_ne_Z (by omega) c h
  rcases List.mem_cons.mp h with rfl | h
  · decide
  rcases List.mem_append.mp h with h | h
  · exact mem_d2_ne_Z (by omega) c h
  rcases List.mem_cons.mp h with rfl | h
  · decide
  rcases List.mem_append.mp h with h | h
  · exact mem_d2_ne_Z (by omega) c h
  rcases List.mem_cons.mp h with rfl | h
  · decide
  rcases List.mem_append.mp h with h | h
  · exact mem_d2_ne_Z (by omega) c h
  rcases List.mem_cons.mp h with rfl | h
  · decide
  rcases List.mem_append.mp h with h | h
  · exact mem_d2_ne_Z (by omega) c h
  rcases List.mem_cons.mp h with rfl | h
  · decide
  rcases List.mem_append.mp h with h | h
  · exact mem_d2_ne_Z (by omega) c h
  rcases List.mem_append.mp h with h | h
  · exact mem_frac_ne_Z (by omega) c h
  · exact mem_tz_ne_Z htz c h

theorem stampUTC_eq {d : DT} (h : d.tz.isSome = true) : stampUTC d = d := by
  unfold stampUTC
  cases hd : d.tz with
  | none => rw [hd] at h; simp at h
  | some off => rfl

theorem parseDatetime_isoformat {d : DT} (hv : validDT d = true) (ha : d.tz.isSome = true) :
    parseDatetime (Value.str (isoformat d)) = some d := by
  have hz : replaceZChars (isoformat d).data = isoChars d := rz_isoChars hv
  have ht : (Value.str (isoformat d)).truthy = true := by
    show (!(isoChars d).isEmpty) = true
    simp [isoChars, d4]
  simp only [parseDatetime, parseDatetimeE, ht, pdTryBody, hz, parseIso_iso hv,
    stampUTC_eq ha]
  rfl

theorem parseDatetime_isoOpt {o : Option DT} (h : dtOK o = true) :
    parseDatetime (isoOpt o) = o := by
  cases o with
  | none => rfl
  | some d =>
    simp only [dtOK, Bool.and_eq_true] at h
    exact parseDatetime_isoformat h.1 h.2

/-! ### Helper lemmas about the entity decoders -/

theorem currency_from_dict_ok {v : Value} (h : valOK v) :
    ∃ r, Currency.from_dict v = .ok r ∧ (v.truthy = false → r = none) := by
  rcases h with h0 | ⟨m, rfl⟩
  · exact ⟨none, by simp [Currency.from_dict, h0], fun _ => rfl⟩
  · by_cases hm : (Value.dict m).truthy = false
    · exact ⟨none, by simp [Currency.from_dict, hm], fun _ => rfl⟩
    · refine ⟨some ⟨pyGet m "identifier" (.str ""), pyGet m "name" (.str ""),
        pyGet m "decimals" (.num 2)⟩, ?_, fun hc => absurd hc hm⟩
      simp [Currency.from_dict, hm]

theorem balance_from_dict_ok {v : Value} (h : valOK v) :
    ∃ r, Balance.from_dict v = .ok r ∧ (v.truthy = false → r = none) := by
  rcases h with h0 | ⟨m, rfl⟩
  · exact ⟨none, by simp [Balance.from_dict, h0], fun _ => rfl⟩
  · by_cases hm : (Value.dict m).truthy = false
    · exact ⟨none, by simp [Balance.from_dict, hm], fun _ => rfl⟩
    · refine ⟨some ⟨pyGet m "amount" (.num 0), pyGet m "credit" (.num 0)⟩, ?_,
        fun hc => absurd hc hm⟩
      simp [Balance.from_dict, hm]

theorem charge_from_dict_ok {m : List (String × Value)} {v : Value}
    (h : List.lookup "id" m = some v) : ∃ c, Charge.from_dict m = .ok c := by
  unfold Charge.from_dict
  rw [h]
  exact ⟨_, rfl⟩

theorem mapCharges_ok {l : List Value} (h : ∀ e ∈ l, chargeElemOK e) :
    ∃ cs, mapCharges l = .ok cs := by
  induction l with
  | nil => exact ⟨[], rfl⟩
  | cons v r ih =>
    obtain ⟨m, rfl, hid⟩ := h v (by simp)
    obtain ⟨idv, hidv⟩ := Option.isSome_iff_exists.mp hid
    obtain ⟨c, hc⟩ := charge_from_dict_ok hidv
    obtain ⟨cs, hcs⟩ := ih (fun e he => h e (by simp [he]))
    exact ⟨c :: cs, by simp [mapCharges, chargeElem, hc, hcs]⟩

theorem mapCharges_length : ∀ {l : List Value} {cs : List Charge},
    mapCharges l = .ok cs → cs.length = l.length := by
  intro l
  induction l with
  | nil =>
    intro cs h
    simp only [mapCharges] at h
    cases h
    rfl
  | cons v r ih =>
    intro cs h
    simp only [mapCharges] at h
    cases he : chargeElem v with
    | error e => rw [he] at h; cases h
    | ok c =>
      rw [he] at h
      cases hr : mapCharges r with
      | error e => rw [hr] at h; cases h
      | ok cs2 =>
        rw [hr] at h
        cases h
        simp [ih hr]

theorem chargesPart_ok {v : Value} (h : chargesOK v) :
    ∃ cs, chargesPart v = .ok cs ∧ (v.truthy = false → cs = []) := by
  rcases h with h0 | ⟨l, rfl, hl⟩
  · exact ⟨[], by simp [chargesPart, h0], fun _ => rfl⟩
  · by_cases htr : (Value.list l).truthy = false
    · exact ⟨[], by simp [chargesPart, htr], fun _ => rfl⟩
    · obtain ⟨cs, hcs⟩ := mapCharges_ok hl
      refine ⟨cs, ?_, fun hc => absurd hc htr⟩
      have htr2 : (Value.list l).truthy = true := by
        cases hb : (Value.list l).truthy
        · exact absurd hb htr
        · rfl
      simp [chargesPart, htr2, hcs]

theorem stampUTC_isSome (d : DT) : (stampUTC d).tz.isSome = true := by
  unfold stampUTC
  cases hd : d.tz <;> simp [hd]

/-! ### Claim theorems -/

/-- Claim C4: the timestamp normalizer maps "2024-01-15T10:30:00Z" and
"2024-01-15T10:30:00+00:00" to the identical UTC instant, maps the
offset-free "2024-01-15T10:30:00" to that same instant stamped as UTC, and
maps each of None, "", and "not-a-date" to an absent result. -/
theorem claim4_timestamp_examples :
    parseDatetime (Value.str "2024-01-15T10:30:00Z") = some dtUTCEx ∧
    parseDatetime (Value.str "2024-01-15T10:30:00+00:00") = some dtUTCEx ∧
    dtUTCEx.tz = some 0 ∧
    parseDatetime (Value.str "2024-01-15T10:30:00") = some dtUTCEx ∧
    parseDatetime Value.null = none ∧
    parseDatetime (Value.str "") = none ∧
    parseDatetime (Value.str "not-a-date") = none :=
  ⟨by decide, by decide, rfl, by decide, rfl, rfl, by decide⟩

/-- Claim C5 (counterexample): an already-typed naive instant is returned
unchanged by `_parse_datetime`, so this non-absent result carries no
offset, contradicting the claim that every non-absent result is
timezone-aware. -/
theorem claim5_counterexample :
    parseDatetime (Value.dt dtNaiveEx) = some dtNaiveEx ∧ dtNaiveEx.tz = none :=
  ⟨rfl, rfl⟩

/-- Claim C5 (amended): every non-absent result produced from a string
input is timezone-aware, with UTC assumed when the string carries no
offset; an already-typed instant input is returned unchanged, hence is
timezone-aware only when the input instant already was. -/
theorem claim5_aware_amended :
    (∀ s d, parseDatetime (Value.str s) = some d → d.tz.isSome = true) ∧
    (∀ d0 : DT, parseDatetime (Value.dt d0) = some d0) := by
  constructor
  · intro s d h
    by_cases ht : (Value.str s).truthy = false
    · simp [parseDatetime, parseDatetimeE, ht] at h
    · simp only [parseDatetime, parseDatetimeE, if_neg ht, pdTryBody] at h
      cases hp : parseIso (replaceZChars s.data) with
      | none => rw [hp] at h; simp at h
      | some e =>
        rw [hp] at h
        simp only [Option.some.injEq] at h
        rw [← h]
        exact stampUTC_isSome e
  · intro d0
    rfl

/-- Claim C5 (witness): the amended theorem applied to a concrete parsed
string and a concrete typed-instant input. -/
theorem claim5_aware_amended_witness :
    dtUTCEx.tz.isSome = true ∧ parseDatetime (Value.dt dtUTCEx) = some dtUTCEx :=
  ⟨claim5_aware_amended.1 "2024-01-15T10:30:00Z" dtUTCEx (by decide),
   claim5_aware_amended.2 dtUTCEx⟩

/-- Claim C6: for every input value `_parse_datetime` returns an instant or
an absent result and never raises: the explicit-exception model always
returns `ok`, every value that is neither a string nor a typed instant
yields the absent result, and a string that fails to parse yields the
absent result. -/
theorem claim6_never_raises (v : Value) :
    parseDatetimeE v = .ok (parseDatetime v) ∧
    ((∀ s, v ≠ Value.str s) → (∀ d, v ≠ Value.dt d) → parseDatetime v = none) ∧
    (∀ s, v = Value.str s → parseIso (replaceZChars s.data) = none →
      parseDatetime v = none) := by
  refine ⟨?_, ?_, ?_⟩
  · cases v with
    | null => rfl
    | bool b => cases b <;> rfl
    | str s =>
      by_cases ht : (Value.str s).truthy = false
      · simp [parseDatetime, parseDatetimeE, ht]
      · simp only [parseDatetime, parseDatetimeE, if_neg ht, pdTryBody]
        cases hp : parseIso (replaceZChars s.data) <;> rfl
    | num q =>
      by_cases ht : (Value.num q).truthy = false <;>
        simp [parseDatetime, parseDatetimeE, ht, pdTryBody]
    | list l =>
      by_cases ht : (Value.list l).truthy = false <;>
        simp [parseDatetime, parseDatetimeE, ht, pdTryBody]
    | dict m =>
      by_cases ht : (Value.dict m).truthy = false <;>
        simp [parseDatetime, parseDatetimeE, ht, pdTryBody]
    | dt d => rfl
  · intro hs hd
    cases v with
    | null => rfl
    | bool b => cases b <;> rfl
    | num q =>
      by_cases ht : (Value.num q).truthy = false <;>
        simp [parseDatetime, parseDatetimeE, ht, pdTryBody]
    | list l =>
      by_cases ht : (Value.list l).truthy = false <;>
        simp [parseDatetime, parseDatetimeE, ht, pdTryBody]
    | dict m =>
      by_cases ht : (Value.dict m).truthy = false <;>
        simp [parseDatetime, parseDatetimeE, ht, pdTryBody]
    | str s => exact absurd rfl (hs s)
    | dt d => exact absurd rfl (hd d)
  · intro s hv hp
    subst hv
    by_cases ht : (Value.str s).truthy = false
    · simp [parseDatetime, parseDatetimeE, ht]
    · simp [parseDatetime, parseDatetimeE, ht, pdTryBody, hp]

/-- Claim C6 (witness): the theorem applied at a wrong-typed input and at
an unparsable string. -/
theorem claim6_never_raises_witness :
    parseDatetime (Value.num 7) = none ∧ parseDatetime (Value.str "not-a-date") = none :=
  ⟨(claim6_never_raises (Value.num 7)).2.1 (fun s h => by cases h) (fun d h => by cases h),
   (claim6_never_raises (Value.str "not-a-date")).2.2 "not-a-date" rfl (by decide)⟩

/-- Claim C1: decoding a Charge, ChargePoint, or WalletTransaction fails
with the missing-field error exactly when the mapping lacks the "id" key;
when "id" is present (and the other values are well-formed) decoding
succeeds, and no other field's absence ever causes a failure. -/
theorem claim1_id_required (dc dp dw : List (String × Value))
    (hp : chargesOK (pyGet dp "charges" (Value.list [])))
    (hf : valOK (pyGet dw "fromCurrency" Value.null))
    (ht2 : valOK (pyGet dw "toCurrency" Value.null)) :
    (List.lookup "id" dc = none → Charge.from_dict dc = .error (.keyError "id")) ∧
    (∀ v, List.lookup "id" dc = some v → ∃ c, Charge.from_dict dc = .ok c) ∧
    (List.lookup "id" dp = none → ChargePoint.from_dict dp = .error (.keyError "id")) ∧
    (∀ v, List.lookup "id" dp = some v → ∃ cp, ChargePoint.from_dict dp = .ok cp) ∧
    (List.lookup "id" dw = none → WalletTransaction.from_dict dw = .error (.keyError "id")) ∧
    (∀ v, List.lookup "id" dw = some v → ∃ t, WalletTransaction.from_dict dw = .ok t) := by
  obtain ⟨cs, hcs, -⟩ := chargesPart_ok hp
  obtain ⟨fc, hfc, -⟩ := currency_from_dict_ok hf
  obtain ⟨tc, htc, -⟩ := currency_from_dict_ok ht2
  refine ⟨?_, ?_, ?_, ?_, ?_, ?_⟩
  · intro h
    simp [Charge.from_dict, h]
  · intro v hv
    exact charge_from_dict_ok hv
  · intro h
    simp [ChargePoint.from_dict, hcs, h]
  · intro v hv
    unfold ChargePoint.from_dict
    rw [hcs, hv]
    exact ⟨_, rfl⟩
  · intro h
    simp [WalletTransaction.from_dict, h]
  · intro v hv
    unfold WalletTransaction.from_dict
    rw [hv, hfc, htc]
    exact ⟨_, rfl⟩

/-- Claim C1 (witness): the empty mapping lacks "id" and satisfies every
well-formedness hypothesis, and all three decoders report the missing
field. -/
theorem claim1_id_required_witness :
    Charge.from_dict [] = .error (.keyError "id") ∧
    ChargePoint.from_dict [] = .error (.keyError "id") ∧
    WalletTransaction.from_dict [] = .error (.keyError "id") := by
  have h := claim1_id_required [] [] [] (Or.inl rfl) (Or.inl rfl) (Or.inl rfl)
  exact ⟨h.1 rfl, h.2.2.1 rfl, h.2.2.2.2.1 rfl⟩

theorem currency_from_dict_dict (m : List (String × Value)) (hm : m ≠ []) :
    Currency.from_dict (Value.dict m) =
      .ok (some ⟨pyGet m "identifier" (.str ""), pyGet m "name" (.str ""),
                 pyGet m "decimals" (.num 2)⟩) := by
  cases m with
  | nil => exact absurd rfl hm
  | cons p r => rfl

theorem balance_from_dict_dict (m : List (String × Value)) (hm : m ≠ []) :
    Balance.from_dict (Value.dict m) =
      .ok (some ⟨pyGet m "amount" (.num 0), pyGet m "credit" (.num 0)⟩) := by
  cases m with
  | nil => exact absurd rfl hm
  | cons p r => rfl

/-- Claim C7: decoding Currency or Balance from None or the empty mapping
yields an absent result, never a zero-valued object; decoding from any
non-empty mapping yields an object where each missing sub-key is replaced
by its field default (decimals 2, amounts 0, strings empty) with no
sub-key ever required. -/
theorem claim7_value_objects :
    Currency.from_dict Value.null = .ok none ∧
    Currency.from_dict (Value.dict []) = .ok none ∧
    Balance.from_dict Value.null = .ok none ∧
    Balance.from_dict (Value.dict []) = .ok none ∧
    (∀ m : List (String × Value), m ≠ [] →
      (∃ c, Currency.from_dict (Value.dict m) = .ok (some c) ∧
        (List.lookup "identifier" m = none → c.identifier = Value.str "") ∧
        (List.lookup "name" m = none → c.name = Value.str "") ∧
        (List.lookup "decimals" m = none → c.decimals = Value.num 2)) ∧
      (∃ b, Balance.from_dict (Value.dict m) = .ok (some b) ∧
        (List.lookup "amount" m = none → b.amount = Value.num 0) ∧
        (List.lookup "credit" m = none → b.credit = Value.num 0))) := by
  refine ⟨rfl, rfl, rfl, rfl, ?_⟩
  intro m hm
  constructor
  · refine ⟨_, currency_from_dict_dict m hm, ?_, ?_, ?_⟩
    · intro h
      simp [pyGet, h]
    · intro h
      simp [pyGet, h]
    · intro h
      simp [pyGet, h]
  · refine ⟨_, balance_from_dict_dict m hm, ?_, ?_⟩
    · intro h
      simp [pyGet, h]
    · intro h
      simp [pyGet, h]

/-- Claim C7 (witness): the theorem applied to a concrete one-key mapping,
in which every other sub-key takes its default. -/
theorem claim7_value_objects_witness :
    (∃ c, Currency.from_dict (Value.dict [("identifier", Value.str "DKK")]) = .ok (some c) ∧
      (List.lookup "identifier" [("identifier", Value.str "DKK")] = none →
        c.identifier = Value.str "") ∧
      (List.lookup "name" [("identifier", Value.str "DKK")] = none →
        c.name = Value.str "") ∧
      (List.lookup "decimals" [("identifier", Value.str "DKK")] = none →
        c.decimals = Value.num 2)) ∧
    (∃ b, Balance.from_dict (Value.dict [("identifier", Value.str "DKK")]) = .ok (some b) ∧
      (List.lookup "amount" [("identifier", Value.str "DKK")] = none →
        b.amount = Value.num 0) ∧
      (List.lookup "credit" [("identifier", Value.str "DKK")] = none →
        b.credit = Value.num 0)) :=
  claim7_value_objects.2.2.2.2 [("identifier", Value.str "DKK")] (List.cons_ne_nil _ _)

/-- Claim C8: a ChargePoint mapping (with "id" present) whose "charges"
key is absent or holds the empty list decodes to an empty charges
sequence without failing, and one whose "charges" key holds a non-empty
list decodes to the element-wise decoded charges, same length, input
order. -/
theorem chargePoint_from_dict_eq {data : List (String × Value)} {idv : Value}
    {cs : List Charge}
    (hcs : chargesPart (pyGet data "charges" (Value.list [])) = .ok cs)
    (hid : List.lookup "id" data = some idv) :
    ChargePoint.from_dict data =
      .ok ⟨idv, pyGet data "name" (.str ""), pyGet data "serialNumber" .null,
           pyGet data "type" (.str ""), pyGet data "state" (.str ""),
           pyGet data "visibility" (.str ""), pyGet data "lastMeterReadingKwh" (.num 0),
           pyGet data "brandName" (.str ""), pyGet data "modelName" (.str ""),
           pyGet data "firmwareVersion" (.str ""), pyGet data "cablePluggedIn" (.bool false),
           cs⟩ := by
  unfold ChargePoint.from_dict
  rw [hcs, hid]

/-- Claim C8: a ChargePoint mapping (with "id" present) whose "charges"
key is absent or holds the empty list decodes to an empty charges
sequence without failing, and one whose "charges" key holds a non-empty
list decodes to the element-wise decoded charges, same length, input
order. -/
theorem claim8_charges_sequence (data : List (String × Value)) (idv : Value)
    (hid : List.lookup "id" data = some idv) :
    (List.lookup "charges" data = none →
      ∃ cp, ChargePoint.from_dict data = .ok cp ∧ cp.charges = []) ∧
    (List.lookup "charges" data = some (Value.list []) →
      ∃ cp, ChargePoint.from_dict data = .ok cp ∧ cp.charges = []) ∧
    (∀ l cs, List.lookup "charges" data = some (Value.list l) → l ≠ [] →
      mapCharges l = .ok cs →
      ∃ cp, ChargePoint.from_dict data = .ok cp ∧ cp.charges = cs ∧
        cs.length = l.length) := by
  refine ⟨?_, ?_, ?_⟩
  · intro h
    have hg : pyGet data "charges" (Value.list []) = Value.list [] := by simp [pyGet, h]
    have hcs : chargesPart (pyGet data "charges" (Value.list [])) = .ok [] := by
      rw [hg]
      rfl
    exact ⟨_, chargePoint_from_dict_eq hcs hid, rfl⟩
  · intro h
    have hg : pyGet data "charges" (Value.list []) = Value.list [] := by simp [pyGet, h]
    have hcs : chargesPart (pyGet data "charges" (Value.list [])) = .ok [] := by
      rw [hg]
      rfl
    exact ⟨_, chargePoint_from_dict_eq hcs hid, rfl⟩
  · intro l cs h hne hmap
    have hg : pyGet data "charges" (Value.list []) = Value.list l := by simp [pyGet, h]
    have htr : (Value.list l).truthy = true := by
      cases l with
      | nil => exact absurd rfl hne
      | cons a r => rfl
    have hcs : chargesPart (pyGet data "charges" (Value.list [])) = .ok cs := by
      rw [hg]
      unfold chargesPart
      rw [htr]
      exact hmap
    exact ⟨_, chargePoint_from_dict_eq hcs hid, rfl, mapCharges_length hmap⟩

/-- Claim C8 (witness): a concrete two-charge input decodes to the two
decoded charges in input order. -/
theorem claim8_charges_sequence_witness :
    ∃ cp, ChargePoint.from_dict chargePointInputEx = .ok cp ∧
      cp.charges = chargesDecodedEx ∧ chargesDecodedEx.length = chargesListEx.length :=
  (claim8_charges_sequence chargePointInputEx (Value.num 9) rfl).2.2 chargesListEx
    chargesDecodedEx rfl (List.cons_ne_nil _ _) rfl

/-- Claim C2 (code evaluation at the failing input): with all four required
keys present but an unparsable access-token expiration string,
`TokenResponse.from_dict` succeeds and stores an absent expiration
instant, although the claim (and the dataclass's non-optional `datetime`
annotation) says decoding fails when the value is unparsable. -/
theorem claim2_token_unparsable_eval :
    TokenResponse.from_dict tokenBugInput =
      .ok ⟨Value.str "tok", none, Value.str "ref", some dtUTCEx, Value.null⟩ := rfl

/-- Claim C3 (counterexample): a Charge produced by the decoder from a
mapping holding an already-typed naive instant does not round-trip
exactly: the re-decoded `created_at` comes back stamped UTC. -/
theorem claim3_counterexample :
    Charge.from_dict [("id", Value.num 1), ("createdAt", Value.dt dtNaiveEx)] =
      .ok chargeNaiveEx ∧
    Charge.from_dict (Charge.to_dict chargeNaiveEx) = .ok chargeNaiveEx2 ∧
    chargeNaiveEx.created_at ≠ chargeNaiveEx2.created_at :=
  ⟨rfl, rfl, by decide⟩

/-- Claim C3 (amended): encoding then re-decoding a Charge or a
WalletTransaction reproduces every field exactly whenever each instant
field is absent or a valid timezone-aware instant; a naive instant is
instead re-decoded stamped as UTC.  The encoders are total functions. -/
theorem claim3_roundtrip :
    (∀ c : Charge, chargeInstantsOK c → Charge.from_dict (Charge.to_dict c) = .ok c) ∧
    (∀ t : WalletTransaction, wtInstantsOK t →
      WalletTransaction.from_dict (WalletTransaction.to_dict t) = .ok t) := by
  have hcur : ∀ o : Option Currency, Currency.from_dict (curVal o) = .ok o := by
    intro o
    cases o <;> rfl
  constructor
  · intro c h
    obtain ⟨h1, h2, h3, h4, h5, h6, h7, h8⟩ := h
    have eq1 : Charge.from_dict (Charge.to_dict c) =
        Except.ok ⟨c.id, c.state,
          parseDatetime (isoOpt c.created_at), parseDatetime (isoOpt c.updated_at),
          parseDatetime (isoOpt c.started_at), parseDatetime (isoOpt c.stopped_at),
          parseDatetime (isoOpt c.cable_plugged_in_at),
          parseDatetime (isoOpt c.fully_charged_at),
          parseDatetime (isoOpt c.failed_at), parseDatetime (isoOpt c.timeout_at)⟩ := rfl
    rw [eq1, parseDatetime_isoOpt h1, parseDatetime_isoOpt h2, parseDatetime_isoOpt h3,
      parseDatetime_isoOpt h4, parseDatetime_isoOpt h5, parseDatetime_isoOpt h6,
      parseDatetime_isoOpt h7, parseDatetime_isoOpt h8]
  · intro t h
    obtain ⟨h1, h2, h3⟩ := h
    have eq1 : WalletTransaction.from_dict (WalletTransaction.to_dict t) =
        (match Currency.from_dict (curVal t.from_currency) with
         | .error err => .error err
         | .ok fc =>
           match Currency.from_dict (curVal t.to_currency) with
           | .error err => .error err
           | .ok tc =>
             Except.ok ⟨t.id, t.state, t.summary, t.note, t.from_amount, fc,
               t.from_wallet_id, t.to_amount, tc, t.to_wallet_id, t.charge_id,
               t.exchange_rate, parseDatetime (isoOpt t.created_at),
               parseDatetime (isoOpt t.updated_at),
               parseDatetime (isoOpt t.completed_at)⟩) := rfl
    rw [eq1, hcur, hcur, parseDatetime_isoOpt h1, parseDatetime_isoOpt h2,
      parseDatetime_isoOpt h3]

/-- Claim C3 (witness): the amended round-trip applied to a concrete aware
Charge and a concrete aware WalletTransaction. -/
theorem claim3_roundtrip_witness :
    Charge.from_dict (Charge.to_dict chargeAwareEx) = .ok chargeAwareEx ∧
    WalletTransaction.from_dict (WalletTransaction.to_dict wtAwareEx) = .ok wtAwareEx :=
  ⟨claim3_roundtrip.1 chargeAwareEx ⟨rfl, rfl, rfl, rfl, rfl, rfl, rfl, rfl⟩,
   claim3_roundtrip.2 wtAwareEx ⟨rfl, rfl, rfl⟩⟩

/-- Claim C9 (counterexample): a truthy non-mapping under "balance" makes
`Wallet.from_dict` raise `AttributeError`, so decoding a Wallet does not
succeed for every input mapping. -/
theorem claim9_counterexample :
    Wallet.from_dict [("balance", Value.num 5)] = .error .attributeError := rfl

/-- Claim C9 (amended): decoding a Wallet succeeds for every mapping whose
"balance" and "currency" values, when present and truthy, are mappings;
within that domain no key is required — a missing key (including "id") is
replaced by its default — and falsy balance/currency values yield absent
embedded value objects. -/
theorem claim9_wallet_amended (data : List (String × Value))
    (hb : valOK (pyGet data "balance" Value.null))
    (hc : valOK (pyGet data "currency" Value.null)) :
    ∃ w, Wallet.from_dict data = .ok w ∧
      (List.lookup "id" data = none → w.id = Value.num 0) ∧
      ((pyGet data "balance" Value.null).truthy = false → w.balance = none) ∧
      ((pyGet data "currency" Value.null).truthy = false → w.currency = none) := by
  obtain ⟨b, hbB, hb0⟩ := balance_from_dict_ok hb
  obtain ⟨c, hcC, hc0⟩ := currency_from_dict_ok hc
  have eq1 : Wallet.from_dict data =
      .ok ⟨pyGet data "id" (.num 0), pyGet data "ownerType" (.str ""), b, c,
           pyGet data "status" (.str "")⟩ := by
    unfold Wallet.from_dict
    rw [hbB, hcC]
  refine ⟨_, eq1, ?_, ?_, ?_⟩
  · intro h
    simp [pyGet, h]
  · intro h
    exact hb0 h
  · intro h
    exact hc0 h

/-- Claim C9 (witness): the amended theorem applied to the empty mapping. -/
theorem claim9_wallet_amended_witness :
    ∃ w, Wallet.from_dict [] = .ok w ∧
      (List.lookup "id" ([] : List (String × Value)) = none → w.id = Value.num 0) ∧
      ((pyGet [] "balance" Value.null).truthy = false → w.balance = none) ∧
      ((pyGet [] "currency" Value.null).truthy = false → w.currency = none) :=
  claim9_wallet_amended [] (Or.inl rfl) (Or.inl rfl)

/-- Claim C10: for every mapping lacking the "id" key, a successfully
decoded Wallet has `id = 0` — the missing identifier is silently replaced
by zero. -/
theorem claim10_wallet_default_id (data : List (String × Value)) (w : Wallet)
    (h : List.lookup "id" data = none) (hw : Wallet.from_dict data = .ok w) :
    w.id = Value.num 0 := by
  unfold Wallet.from_dict at hw
  cases hb : Balance.from_dict (pyGet data "balance" Value.null) with
  | error e2 =>
    rw [hb] at hw
    simp at hw
  | ok b =>
    rw [hb] at hw
    cases hc : Currency.from_dict (pyGet data "currency" Value.null) with
    | error e2 =>
      rw [hc] at hw
      simp at hw
    | ok c =>
      rw [hc] at hw
      simp only [Except.ok.injEq] at hw
      rw [← hw]
      simp [pyGet, h]

/-- Claim C10 (witness): the theorem applied to the empty mapping and its
decoded wallet. -/
theorem claim10_wallet_default_id_witness : walletEmptyEx.id = Value.num 0 :=
  claim10_wallet_default_id [] walletEmptyEx rfl rfl
